import Mathlib

/-!
Verification development for the sambacc container configuration tool
(src/sambacc/main.py). The program is embedded shallowly: each command
function becomes a pure Lean function from the parsed command line, the
environment, the parsed configuration documents and a world of backing
stores to a trace of observable events plus either a failure or an updated
world. Components of the repository that live outside the shown source
file (the config reader, the passwd/group/passdb loaders, the nsswitch
loader) are modelled from the specification, as marked on each definition.
-/

namespace Sambacc

/-- A declared user (spec section 3): username and numeric ids. -/
structure User where
  name : String
  uid : Nat
  gid : Nat
deriving DecidableEq, Repr

/-- A declared group (spec section 3): group name, gid and member usernames. -/
structure Group where
  name : String
  gid : Nat
  members : List String
deriving DecidableEq, Repr

/-- One identity's declarative configuration (spec section 3). -/
structure IdentityConfig where
  users : List User
  groups : List Group
deriving DecidableEq, Repr

/-- One parsed configuration document: identity key to identity config. -/
abbrev Doc := List (String × IdentityConfig)

/-- Modelled from the spec (section 4.1; config.read_config_files and ConfigSet.get
are not under src/): sources are merged in the given order, a later source wins per
identity key; looking up an identity absent from all merged sources yields none,
which the callers turn into the ConfigNotFound failure. -/
def read_config_files_get (docs : List Doc) (ident : String) : Option IdentityConfig :=
  docs.reverse.findSome? (fun d => d.lookup ident)

/-- Observable side effects on the backing stores and external collaborators. -/
inductive Event where
  | ensureSambaDirs
  | registryImport
  | readPasswdFile
  | readGroupFile
  | writePasswdFile
  | writeGroupFile
  | passdbAdd (name : String)
  | nssRead
  | nssWrite
  | joinOp (username password : String)
  | execOp (argv : List String)
deriving DecidableEq, Repr

/-- How a successful invocation ends: a normal return, or replacement of the
process image by an external daemon (os.execvp), which never returns. -/
inductive Outcome where
  | finished
  | execed (argv : List String)
deriving DecidableEq, Repr

/-- Fatal failures: argparse rejection at parse time, the Fail exception, and the
ConfigNotFound failure of the config reader. -/
inductive Err where
  | usage (msg : String)
  | fail (msg : String)
  | configNotFound
deriving DecidableEq, Repr

/-- Modelled from the spec (section 4.3 step 1; passwd_loader is not under src/):
add_user appends a passwd record only when no record with the same name exists. -/
def passwdAddUser (entries : List User) (u : User) : List User :=
  if entries.any (fun e => e.name == u.name) then entries else entries ++ [u]

/-- Modelled from the spec (section 4.3 step 1; passwd_loader is not under src/):
add_group appends a group record only when no record with the same name exists. -/
def groupAddGroup (entries : List Group) (g : Group) : List Group :=
  if entries.any (fun e => e.name == g.name) then entries else entries ++ [g]

/-- Modelled from the spec (section 4.3 step 2; passdb_loader is not under src/):
upsert an entry keyed by username into the service credential database. -/
def passdbUpsert (db : List String) (u : User) : List String :=
  if db.contains u.name then db else db ++ [u.name]

/-- The name service databases whose resolution order must list winbind. -/
def winbindDbs : List String := ["passwd", "group"]

/-- Modelled from the spec (section 4.4; nsswitch_loader is not under src/): a
database's resolution order enables the module when some directive line for that
database lists it. -/
def dbEnabled (conf : List (String × List String)) (db : String) : Bool :=
  conf.any (fun p => p.1 == db && p.2.contains "winbind")

/-- Modelled from the spec (section 4.4): winbind counts as enabled when it is
present in both the passwd and the group resolution order. -/
def winbind_enabled (conf : List (String × List String)) : Bool :=
  winbindDbs.all (fun db => dbEnabled conf db)

/-- Modelled from the spec (section 4.4): insert the module into the resolution
order of each required database line where it is absent (position policy:
appended); every other directive is left untouched. -/
def ensure_winbind_enabled (conf : List (String × List String)) :
    List (String × List String) :=
  conf.map (fun p =>
    if winbindDbs.contains p.1 && !(p.2.contains "winbind") then (p.1, p.2 ++ ["winbind"])
    else p)

/-- The mutable backing stores: the OS passwd and group files, the service
credential database (by username) and the nsswitch directives. -/
structure World where
  passwdFile : List User
  groupFile : List Group
  passdb : List String
  nss : List (String × List String)
deriving DecidableEq, Repr

/-- The parsed subcommand, mirroring the argparse subparsers of main. -/
inductive RawSub where
  | printConfig
  | importCfg
  | importUsersCmd
  | initCmd
  | run (noInit : Bool) (insecureAutoJoin : Bool) (target : String)
  | insecureJoin
deriving DecidableEq, Repr

/-- The parsed command line namespace after argparse defaults are applied,
mirroring the cli object of main.py. -/
structure Cli where
  config : Option (List String)
  identity : Option String
  etcPasswdPath : String
  etcGroupPath : String
  username : String
  password : String
  debugDelay : Option Nat
  sub : Option RawSub
  noInit : Bool
  insecureAutoJoin : Bool
  target : Option String
deriving DecidableEq, Repr

/-- The result of one command function: the trace of events it performed,
and either a fatal failure or the updated world with the outcome. -/
abbrev OpResult := List Event × Except Err (World × Outcome)

/-- The identity config lookup shared by the command functions:
config.read_config_files(cli.config or []).get(cli.identity). `fs` maps a
configuration path to its parsed document. -/
def getIConfig (fs : String → Doc) (cli : Cli) : Option IdentityConfig :=
  read_config_files_get ((cli.config.getD []).map fs) (cli.identity.getD "")

/-- Embedding of print_config (src/sambacc/main.py): renders the selected
identity's config to stdout, touching no backing store. -/
def print_config (cli : Cli) (fs : String → Doc) (w : World) : OpResult :=
  match getIConfig fs cli with
  | none => ([], .error .configNotFound)
  | some _ => ([], .ok (w, .finished))

/-- Embedding of import_config (src/sambacc/main.py): ensure_samba_dirs runs
first, then the config lookup, then the registry import via the net command. -/
def import_config (cli : Cli) (fs : String → Doc) (w : World) : OpResult :=
  match getIConfig fs cli with
  | none => ([Event.ensureSambaDirs], .error .configNotFound)
  | some _ => ([Event.ensureSambaDirs, Event.registryImport], .ok (w, .finished))

/-- Embedding of import_users (src/sambacc/main.py): read passwd then group,
add the declared users and groups in memory, write passwd then group, then add
every declared user to the samba passdb. -/
def import_users (cli : Cli) (fs : String → Doc) (w : World) : OpResult :=
  match getIConfig fs cli with
  | none => ([], .error .configNotFound)
  | some icfg =>
    ([Event.readPasswdFile, Event.readGroupFile, Event.writePasswdFile,
        Event.writeGroupFile] ++ icfg.users.map (fun u => Event.passdbAdd u.name),
     .ok ({ w with
              passwdFile := icfg.users.foldl passwdAddUser w.passwdFile,
              groupFile := icfg.groups.foldl groupAddGroup w.groupFile,
              passdb := icfg.users.foldl passdbUpsert w.passdb },
          .finished))

/-- Embedding of the nsswitch block of init_container (src/sambacc/main.py):
read the file, and only when winbind is not enabled, enable it and write. -/
def nssStep (w : World) : List Event × World :=
  if winbind_enabled w.nss then ([Event.nssRead], w)
  else ([Event.nssRead, Event.nssWrite], { w with nss := ensure_winbind_enabled w.nss })

/-- Embedding of init_container (src/sambacc/main.py): import_config, then
import_users, then the nsswitch step, each starting only after the previous
one returned. -/
def init_container (cli : Cli) (fs : String → Doc) (w : World) : OpResult :=
  match import_config cli fs w with
  | (e1, .error err) => (e1, .error err)
  | (e1, .ok (w1, _)) =>
    match import_users cli fs w1 with
    | (e2, .error err) => (e1 ++ e2, .error err)
    | (e2, .ok (w2, _)) =>
      let p := nssStep w2
      (e1 ++ e2 ++ p.1, .ok (p.2, .finished))

/-- The fixed argument vector for the smbd daemon (src/sambacc/main.py). -/
def smbdCmd : List String :=
  ["/usr/sbin/smbd", "--foreground", "--log-stdout", "--no-process-group"]

/-- The fixed argument vector for the winbindd daemon (src/sambacc/main.py). -/
def winbinddCmd : List String :=
  ["/usr/sbin/winbindd", "--foreground", "--stdout", "--no-process-group"]

/-- Embedding of join (src/sambacc/main.py): invoke the external joiner with
the cleartext credentials from the cli. -/
def join (cli : Cli) (_fs : String → Doc) (w : World) : OpResult :=
  ([Event.joinOp cli.username cli.password], .ok (w, .finished))

/-- Embedding of run_container (src/sambacc/main.py): initialize (or only
ensure the samba dirs under no_init), then dispatch on the target, joining
first for winbindd when insecure_auto_join is set, and finally replace the
process image; an unrecognized target raises Fail. -/
def run_container (cli : Cli) (fs : String → Doc) (w : World) : OpResult :=
  let s0 :=
    if !cli.noInit then init_container cli fs w
    else ([Event.ensureSambaDirs], .ok (w, Outcome.finished))
  match s0 with
  | (e0, .error err) => (e0, .error err)
  | (e0, .ok (w1, _)) =>
    if cli.target = some "smbd" then
      (e0 ++ [Event.execOp smbdCmd], .ok (w1, .execed smbdCmd))
    else if cli.target = some "winbindd" then
      let je := if cli.insecureAutoJoin then [Event.joinOp cli.username cli.password] else []
      (e0 ++ (je ++ [Event.execOp winbinddCmd]), .ok (w1, .execed winbinddCmd))
    else (e0, .error (.fail "invalid target process"))

/-- The valid choices of the run subcommand's positional target argument. -/
def validTargets : List String := ["smbd", "winbindd"]

/-- The raw command line before argparse defaults: none stands for an option
that was not supplied. -/
structure RawArgs where
  config : Option (List String) := none
  identity : Option String := none
  etcPasswdPath : Option String := none
  etcGroupPath : Option String := none
  username : Option String := none
  password : Option String := none
  debugDelay : Option Nat := none
  sub : Option RawSub := none
deriving DecidableEq, Repr

/-- Apply the argparse defaults of main (src/sambacc/main.py): username
defaults to Administrator, password to the empty string, the file paths to
/etc/passwd and /etc/group; identity and config have no default. -/
def mkCli (raw : RawArgs) : Cli :=
  { config := raw.config
    identity := raw.identity
    etcPasswdPath := raw.etcPasswdPath.getD "/etc/passwd"
    etcGroupPath := raw.etcGroupPath.getD "/etc/group"
    username := raw.username.getD "Administrator"
    password := raw.password.getD ""
    debugDelay := raw.debugDelay
    sub := raw.sub
    noInit := match raw.sub with | some (RawSub.run ni _ _) => ni | _ => false
    insecureAutoJoin := match raw.sub with | some (RawSub.run _ aj _) => aj | _ => false
    target := match raw.sub with | some (RawSub.run _ _ t) => some t | _ => none }

/-- Embedding of parser.parse_args: the run subcommand's target is restricted
to the choices smbd and winbindd at parse time, so an unrecognized target is
rejected before anything else runs. -/
def parse_args (raw : RawArgs) : Except Err Cli :=
  match raw.sub with
  | some (RawSub.run _ _ t) =>
    if t ∈ validTargets then .ok (mkCli raw) else .error (.usage "invalid choice")
  | _ => .ok (mkCli raw)

/-- Helper for splitColons: structural recursion over the characters, carrying
the reversed current token. -/
def splitColonsAux : List Char → List Char → List String
  | [], acc => [String.mk acc.reverse]
  | c :: cs, acc =>
    if c = ':' then String.mk acc.reverse :: splitColonsAux cs []
    else splitColonsAux cs (c :: acc)

/-- The semantics of python str.split on a single colon separator: the empty
string yields one empty part, and every colon separates two parts. -/
def splitColons (s : String) : List String :=
  splitColonsAux s.data []

/-- Embedding of split_paths (src/sambacc/main.py): split every element on
colons, in order. -/
def split_paths (vs : List String) : List String :=
  vs.foldl (fun acc v => acc ++ splitColons v) []

/-- Embedding of from_env for a plain string attribute (vtype str): when the
current value is falsy, fall back to the environment variable; the attribute
is only replaced when the resulting value is truthy. -/
def from_env_str (cur : String) (env : Option String) : String :=
  let value := if cur = "" then env.getD "" else cur
  if value = "" then cur else value

/-- Embedding of from_env for an attribute that may be absent (identity):
python truthiness treats both None and the empty string as missing. -/
def from_env_opt (cur : Option String) (env : Option String) : Option String :=
  let value :=
    match cur with
    | some s => if s = "" then env.getD "" else s
    | none => env.getD ""
  if value = "" then cur else some value

/-- Embedding of from_env for the config attribute (vtype split_paths): a
falsy current value falls back to the environment string, and split_paths is
applied to whichever value was selected before it is stored. -/
def from_env_config (cur : Option (List String)) (env : Option String) :
    Option (List String) :=
  match cur with
  | some l =>
    if l = [] then
      (let e := env.getD ""
       if e = "" then cur else some (split_paths [e]))
    else some (split_paths l)
  | none =>
    let e := env.getD ""
    if e = "" then none else some (split_paths [e])

/-- The environment variables consulted by main (src/sambacc/main.py). -/
structure Env where
  sambaccConfig : Option String := none
  sambaContainerId : Option String := none
  joinUsername : Option String := none
  insecureJoinPassword : Option String := none
deriving DecidableEq, Repr

/-- The four from_env calls of main (src/sambacc/main.py). -/
def applyEnv (cli : Cli) (env : Env) : Cli :=
  { cli with
    config := from_env_config cli.config env.sambaccConfig
    identity := from_env_opt cli.identity env.sambaContainerId
    username := from_env_str cli.username env.joinUsername
    password := from_env_str cli.password env.insecureJoinPassword }

/-- Python truthiness of an optional string: None and the empty string are
falsy. -/
def optTruthy : Option String → Bool
  | none => false
  | some s => !(s == "")

/-- Embedding of cfunc dispatch: each subparser sets its command function;
with no subcommand the default is print_config. -/
def dispatch (cli : Cli) (fs : String → Doc) (w : World) : OpResult :=
  match cli.sub with
  | some RawSub.printConfig => print_config cli fs w
  | some RawSub.importCfg => import_config cli fs w
  | some RawSub.importUsersCmd => import_users cli fs w
  | some RawSub.initCmd => init_container cli fs w
  | some (RawSub.run _ _ _) => run_container cli fs w
  | some RawSub.insecureJoin => join cli fs w
  | none => print_config cli fs w

/-- Embedding of main (src/sambacc/main.py): parse the arguments, apply the
environment fallbacks, fail when no identity is set, then run the selected
command function. pre_action only sleeps and changes no store, so it
contributes no event. -/
def mainRun (raw : RawArgs) (env : Env) (fs : String → Doc) (w : World) : OpResult :=
  match parse_args raw with
  | .error e => ([], .error e)
  | .ok cli0 =>
    let cli := applyEnv cli0 env
    if optTruthy cli.identity then dispatch cli fs w
    else ([], .error (.fail "missing container identity"))

/-- Whether an event writes one of the backing stores named by the spec: the
registry, the passwd or group file, the credential database, or the name
resolution file. -/
def storeWrite : Event → Bool
  | .registryImport => true
  | .writePasswdFile => true
  | .writeGroupFile => true
  | .passdbAdd _ => true
  | .nssWrite => true
  | _ => false

/-- Which bootstrap step an event belongs to: 0 registry import, 1 identity
import, 2 name resolution, 3 the final join or process handoff. -/
def stepOf : Event → Nat
  | .ensureSambaDirs => 0
  | .registryImport => 0
  | .readPasswdFile => 1
  | .readGroupFile => 1
  | .writePasswdFile => 1
  | .writeGroupFile => 1
  | .passdbAdd _ => 1
  | .nssRead => 2
  | .nssWrite => 2
  | .joinOp _ _ => 3
  | .execOp _ => 3

/-- Whether the selected subcommand ever reads the merged configuration:
insecure-join never does, and run skips it under no_init. -/
def consultsConfig : Option RawSub → Bool
  | some RawSub.insecureJoin => false
  | some (RawSub.run ni _ _) => !ni
  | _ => true

/-- Whether some directive line for the given database exists. -/
def hasDb (conf : List (String × List String)) (db : String) : Bool :=
  conf.any (fun p => p.1 == db)


deriving instance DecidableEq for Except

/-- Test fixture: the identity config of the end-to-end scenario. -/
def cfgSrv1 : IdentityConfig :=
  ⟨[⟨"bob", 2001, 2001⟩], [⟨"bobgrp", 2001, ["bob"]⟩]⟩

/-- Test fixture: a config source set defining only identity srv1. -/
def fsSrv1 : String → Doc := fun _ => [("srv1", cfgSrv1)]

/-- Test fixture: an initial world with winbind not yet enabled. -/
def w0 : World := ⟨[], [], [], [("passwd", ["files"]), ("group", ["files"])]⟩

/-- Test fixture: a parsed command line selecting import-users for srv1. -/
def cliImportUsers : Cli :=
  { config := some ["c"], identity := some "srv1", etcPasswdPath := "/etc/passwd",
    etcGroupPath := "/etc/group", username := "Administrator", password := "",
    debugDelay := none, sub := some RawSub.importUsersCmd, noInit := false,
    insecureAutoJoin := false, target := none }

/-- Test fixture: parsed arguments for a run of smbd against srv1. -/
def rawRunSmbd : RawArgs :=
  { config := some ["c"], identity := some "srv1",
    sub := some (RawSub.run false false "smbd") }

/-- Test fixture: parsed arguments for a run of winbindd with auto join. -/
def rawRunWb : RawArgs :=
  { config := some ["c"], identity := some "srv1",
    sub := some (RawSub.run false true "winbindd") }

/-- Test fixture: the world after a full bootstrap of srv1 starting from w0. -/
def wReady : World :=
  ⟨[⟨"bob", 2001, 2001⟩], [⟨"bobgrp", 2001, ["bob"]⟩], ["bob"],
   [("passwd", ["files", "winbind"]), ("group", ["files", "winbind"])]⟩

/-- Test fixture: the trace of a successful initialize of srv1 from w0. -/
def initTraceSrv1 : List Event :=
  [Event.ensureSambaDirs, Event.registryImport, Event.readPasswdFile, Event.readGroupFile,
   Event.writePasswdFile, Event.writeGroupFile, Event.passdbAdd "bob", Event.nssRead,
   Event.nssWrite]

/-- C7: for each option sourced from both the CLI and an environment variable, a
non-empty CLI value wins and the environment value is ignored (the config list is
still colon-split, but independently of the environment). -/
theorem cli_value_overrides_env (cli : Cli) (env : Env) :
    (∀ s, cli.identity = some s → s ≠ "" → (applyEnv cli env).identity = some s) ∧
    (cli.username ≠ "" → (applyEnv cli env).username = cli.username) ∧
    (cli.password ≠ "" → (applyEnv cli env).password = cli.password) ∧
    (∀ l, cli.config = some l → l ≠ [] → (applyEnv cli env).config = some (split_paths l)) := by
  refine ⟨?_, ?_, ?_, ?_⟩
  · intro s hs hne
    simp [applyEnv, from_env_opt, hs, hne]
  · intro hne
    simp [applyEnv, from_env_str, hne]
  · intro hne
    simp [applyEnv, from_env_str, hne]
  · intro l hl hne
    simp [applyEnv, from_env_config, hl, hne]

theorem cli_value_overrides_env_witness :
    (applyEnv
        { config := some ["a:b"], identity := some "id1", etcPasswdPath := "/etc/passwd",
          etcGroupPath := "/etc/group", username := "u", password := "p", debugDelay := none,
          sub := none, noInit := false, insecureAutoJoin := false, target := none }
        { sambaccConfig := some "zz", sambaContainerId := some "envid",
          joinUsername := some "envu", insecureJoinPassword := some "envp" }).identity
      = some "id1" ∧
    (applyEnv
        { config := some ["a:b"], identity := some "id1", etcPasswdPath := "/etc/passwd",
          etcGroupPath := "/etc/group", username := "u", password := "p", debugDelay := none,
          sub := none, noInit := false, insecureAutoJoin := false, target := none }
        { sambaccConfig := some "zz", sambaContainerId := some "envid",
          joinUsername := some "envu", insecureJoinPassword := some "envp" }).username = "u" := by
  have h := cli_value_overrides_env
    { config := some ["a:b"], identity := some "id1", etcPasswdPath := "/etc/passwd",
      etcGroupPath := "/etc/group", username := "u", password := "p", debugDelay := none,
      sub := none, noInit := false, insecureAutoJoin := false, target := none }
    { sambaccConfig := some "zz", sambaContainerId := some "envid",
      joinUsername := some "envu", insecureJoinPassword := some "envp" }
  exact ⟨h.1 "id1" rfl (by decide), h.2.1 (by decide)⟩

/-- C10 counterexample: explicitly passing an empty username on the CLI makes the
join consult JOIN_USERNAME, so the join username can equal the environment value,
which is neither the CLI-supplied value nor Administrator. -/
theorem join_username_env_counterexample :
    (mainRun { config := some ["c"], identity := some "srv1", username := some "",
               sub := some RawSub.insecureJoin }
       { joinUsername := some "Hacker" } (fun _ => [("srv1", ⟨[], []⟩)]) ⟨[], [], [], []⟩).1
      = [Event.joinOp "Hacker" ""] ∧
    ("Hacker" : String) ≠ "" ∧ ("Hacker" : String) ≠ "Administrator" :=
  ⟨rfl, by decide, by decide⟩

/-- C10 amended: unless the CLI username is explicitly the empty string, the join
username equals the CLI value or the default Administrator and JOIN_USERNAME is
ignored; the password, whose default is empty, does fall back to
INSECURE_JOIN_PASSWORD when no CLI password is given. -/
theorem join_username_ignores_env (raw : RawArgs) (env : Env)
    (hu : raw.username ≠ some "") :
    (applyEnv (mkCli raw) env).username = raw.username.getD "Administrator" ∧
    (raw.password = none →
      (applyEnv (mkCli raw) env).password = env.insecureJoinPassword.getD "") := by
  constructor
  · cases hru : raw.username with
    | none => simp [applyEnv, mkCli, from_env_str, hru]
    | some s =>
      have hs : s ≠ "" := by
        intro h
        exact hu (by rw [hru, h])
      simp [applyEnv, mkCli, from_env_str, hru, hs]
  · intro hp
    cases he : env.insecureJoinPassword with
    | none => simp [applyEnv, mkCli, from_env_str, hp, he]
    | some p =>
      by_cases hpe : p = "" <;> simp [applyEnv, mkCli, from_env_str, hp, he, hpe]

theorem join_username_ignores_env_witness :
    (applyEnv (mkCli { identity := some "srv1", sub := some RawSub.insecureJoin })
        { joinUsername := some "envu", insecureJoinPassword := some "envp" }).username
      = "Administrator" ∧
    (applyEnv (mkCli { identity := some "srv1", sub := some RawSub.insecureJoin })
        { joinUsername := some "envu", insecureJoinPassword := some "envp" }).password
      = "envp" := by
  have h := join_username_ignores_env { identity := some "srv1", sub := some RawSub.insecureJoin }
    { joinUsername := some "envu", insecureJoinPassword := some "envp" } (by decide)
  exact ⟨h.1, h.2 rfl⟩


theorem applyEnv_sub (cli : Cli) (env : Env) : (applyEnv cli env).sub = cli.sub := rfl

theorem mkCli_sub (raw : RawArgs) : (mkCli raw).sub = raw.sub := rfl

theorem parse_args_ok_eq {raw : RawArgs} {c : Cli} (h : parse_args raw = Except.ok c) :
    c = mkCli raw := by
  cases hs : raw.sub with
  | none => simp [parse_args, hs] at h; exact h.symm
  | some s =>
    cases s with
    | run ni aj t =>
      by_cases ht : t ∈ validTargets <;> simp [parse_args, hs, ht] at h
      exact h.symm
    | printConfig => simp [parse_args, hs] at h; exact h.symm
    | importCfg => simp [parse_args, hs] at h; exact h.symm
    | importUsersCmd => simp [parse_args, hs] at h; exact h.symm
    | initCmd => simp [parse_args, hs] at h; exact h.symm
    | insecureJoin => simp [parse_args, hs] at h; exact h.symm

/-- C2: an unrecognized run target is rejected at argument parsing, before any
reconciler step runs or any store is touched: the failure carries an empty trace. -/
theorem run_invalid_target_rejected_before_side_effects
    (raw : RawArgs) (env : Env) (fs : String → Doc) (w : World)
    (ni aj : Bool) (t : String)
    (hsub : raw.sub = some (RawSub.run ni aj t))
    (ht : t ∉ validTargets) :
    mainRun raw env fs w = ([], .error (.usage "invalid choice")) := by
  unfold mainRun parse_args
  rw [hsub]
  simp [ht]

theorem run_invalid_target_rejected_before_side_effects_witness :
    mainRun { identity := some "srv1", sub := some (RawSub.run false false "bogus") }
      {} (fun _ => []) ⟨[], [], [], []⟩ = ([], .error (.usage "invalid choice")) :=
  run_invalid_target_rejected_before_side_effects _ _ _ _ false false "bogus" rfl (by decide)


theorem applyEnv_noInit (cli : Cli) (env : Env) : (applyEnv cli env).noInit = cli.noInit := rfl

theorem mkCli_noInit_of_consults {raw : RawArgs} (h : consultsConfig raw.sub = true) :
    (mkCli raw).noInit = false := by
  cases hs : raw.sub with
  | none => simp [mkCli, hs]
  | some s =>
    cases s with
    | run ni aj t =>
      rw [hs] at h
      simp [consultsConfig] at h
      simp [mkCli, hs, h]
    | printConfig => simp [mkCli, hs]
    | importCfg => simp [mkCli, hs]
    | importUsersCmd => simp [mkCli, hs]
    | initCmd => simp [mkCli, hs]
    | insecureJoin => simp [mkCli, hs]

theorem dispatch_config_missing (cli : Cli) (fs : String → Doc) (w : World)
    (hcc : consultsConfig cli.sub = true)
    (hni : cli.noInit = false)
    (hnone : getIConfig fs cli = none) :
    (dispatch cli fs w).2 = Except.error Err.configNotFound ∧
    ((dispatch cli fs w).1 = [] ∨ (dispatch cli fs w).1 = [Event.ensureSambaDirs]) := by
  cases hs : cli.sub with
  | none => exact ⟨by simp [dispatch, hs, print_config, hnone], Or.inl (by simp [dispatch, hs, print_config, hnone])⟩
  | some s =>
    cases s with
    | printConfig =>
      exact ⟨by simp [dispatch, hs, print_config, hnone], Or.inl (by simp [dispatch, hs, print_config, hnone])⟩
    | importCfg =>
      exact ⟨by simp [dispatch, hs, import_config, hnone], Or.inr (by simp [dispatch, hs, import_config, hnone])⟩
    | importUsersCmd =>
      exact ⟨by simp [dispatch, hs, import_users, hnone], Or.inl (by simp [dispatch, hs, import_users, hnone])⟩
    | initCmd =>
      exact ⟨by simp [dispatch, hs, init_container, import_config, hnone],
             Or.inr (by simp [dispatch, hs, init_container, import_config, hnone])⟩
    | run ni aj t =>
      refine ⟨?_, Or.inr ?_⟩ <;>
        simp [dispatch, hs, run_container, hni, init_container, import_config, hnone]
    | insecureJoin =>
      rw [hs] at hcc
      simp [consultsConfig] at hcc



/-- C1 counterexample: the insecure-join subcommand never consults the merged
configuration, so requesting identity ghost against a config set containing only
srv1 does not fail: the invocation succeeds and performs the join. -/
theorem missing_identity_counterexample :
    read_config_files_get [[("srv1", ⟨[], []⟩)]] "ghost" = none ∧
    mainRun { config := some ["c"], identity := some "ghost", sub := some RawSub.insecureJoin }
        {} (fun _ => [("srv1", ⟨[], []⟩)]) ⟨[], [], [], []⟩
      = ([Event.joinOp "Administrator" ""], .ok (⟨[], [], [], []⟩, .finished)) :=
  ⟨rfl, rfl⟩

/-- C1 amended: when no identity is supplied, every invocation fails before any
store is touched; when the identity is absent from all merged sources, every
invocation of an operation that consults the config (all but insecure-join and
run under no_init) fails with ConfigNotFound, and in either case no backing
store is written. -/
theorem missing_identity_aborts
    (raw : RawArgs) (env : Env) (fs : String → Doc) (w : World)
    (h : optTruthy ((applyEnv (mkCli raw) env).identity) = false ∨
         (consultsConfig raw.sub = true ∧ getIConfig fs (applyEnv (mkCli raw) env) = none)) :
    (∃ e, (mainRun raw env fs w).2 = Except.error e) ∧
    ∀ ev ∈ (mainRun raw env fs w).1, storeWrite ev = false := by
  cases hp : parse_args raw with
  | error e =>
    exact ⟨⟨e, by simp [mainRun, hp]⟩, by simp [mainRun, hp]⟩
  | ok cli0 =>
    have hc0 : cli0 = mkCli raw := parse_args_ok_eq hp
    subst hc0
    by_cases hid : optTruthy ((applyEnv (mkCli raw) env).identity) = true
    · have h2 : consultsConfig raw.sub = true ∧
          getIConfig fs (applyEnv (mkCli raw) env) = none := by
        rcases h with h1 | h2
        · rw [hid] at h1; cases h1
        · exact h2
      obtain ⟨hcc, hnone⟩ := h2
      have hcc' : consultsConfig (applyEnv (mkCli raw) env).sub = true := by
        rw [applyEnv_sub, mkCli_sub]; exact hcc
      have hni : (applyEnv (mkCli raw) env).noInit = false := by
        rw [applyEnv_noInit]; exact mkCli_noInit_of_consults hcc
      have hd := dispatch_config_missing (applyEnv (mkCli raw) env) fs w hcc' hni hnone
      have hmain : mainRun raw env fs w = dispatch (applyEnv (mkCli raw) env) fs w := by
        simp [mainRun, hp, hid]
      rw [hmain]
      refine ⟨⟨Err.configNotFound, hd.1⟩, ?_⟩
      rcases hd.2 with h' | h' <;> rw [h'] <;> intro ev hev <;> simp at hev
      rw [hev]; rfl
    · have hid' : optTruthy ((applyEnv (mkCli raw) env).identity) = false := by
        cases hb : optTruthy ((applyEnv (mkCli raw) env).identity)
        · rfl
        · exact absurd hb hid
      exact ⟨⟨Err.fail "missing container identity", by simp [mainRun, hp, hid']⟩,
             by simp [mainRun, hp, hid']⟩

theorem missing_identity_aborts_witness :
    (∃ e, (mainRun { config := some ["c"], identity := some "ghost", sub := some RawSub.importCfg }
        {} fsSrv1 w0).2 = Except.error e) ∧
    ∀ ev ∈ (mainRun { config := some ["c"], identity := some "ghost", sub := some RawSub.importCfg }
        {} fsSrv1 w0).1, storeWrite ev = false :=
  missing_identity_aborts _ _ _ _ (Or.inr ⟨rfl, by decide⟩)

/-- C5: the identity import performs a credential-database upsert for every
declared user, and its trace does not depend on the initial state of the OS
stores at all, so a pre-existing OS account changes nothing. -/
theorem import_users_passdb_every_user
    (cli : Cli) (fs : String → Doc) (w : World) (icfg : IdentityConfig) (u : User)
    (hc : getIConfig fs cli = some icfg) (hu : u ∈ icfg.users) :
    Event.passdbAdd u.name ∈ (import_users cli fs w).1 ∧
    ∀ w' : World, (import_users cli fs w').1 = (import_users cli fs w).1 := by
  constructor
  · simp only [import_users, hc, List.mem_append]
    right
    exact List.mem_map_of_mem _ hu
  · intro w'
    simp [import_users, hc]

theorem import_users_passdb_every_user_witness :
    Event.passdbAdd "bob" ∈ (import_users cliImportUsers fsSrv1 ⟨[⟨"bob", 1000, 1000⟩], [], [], []⟩).1 :=
  (import_users_passdb_every_user cliImportUsers fsSrv1 ⟨[⟨"bob", 1000, 1000⟩], [], [], []⟩
    cfgSrv1 ⟨"bob", 2001, 2001⟩ (by decide) (by decide)).1

/-- C4: in the identity import, both OS file writes occur at strictly earlier
trace positions than every credential-database upsert. -/
theorem import_users_files_before_passdb
    (cli : Cli) (fs : String → Doc) (w : World) (icfg : IdentityConfig)
    (hc : getIConfig fs cli = some icfg) :
    ∀ (i j : Nat) (n : String),
      ((import_users cli fs w).1[i]? = some Event.writePasswdFile ∨
       (import_users cli fs w).1[i]? = some Event.writeGroupFile) →
      (import_users cli fs w).1[j]? = some (Event.passdbAdd n) → i < j := by
  intro i j n hw hpj
  have ht : (import_users cli fs w).1 =
      [Event.readPasswdFile, Event.readGroupFile, Event.writePasswdFile, Event.writeGroupFile]
        ++ icfg.users.map (fun u => Event.passdbAdd u.name) := by
    simp [import_users, hc]
  rw [ht] at hw hpj
  have hi4 : i < 4 := by
    by_contra hge
    push_neg at hge
    rw [List.getElem?_append_right (by simpa using hge)] at hw
    rw [List.getElem?_map] at hw
    rcases hw with hw | hw <;>
      rcases Option.map_eq_some'.mp hw with ⟨u, _, hu⟩ <;> cases hu
  have hj4 : 4 ≤ j := by
    by_contra hlt
    push_neg at hlt
    rw [List.getElem?_append] at hpj
    rw [if_pos (by simpa using hlt)] at hpj
    interval_cases j <;> simp_all
  omega

theorem import_users_files_before_passdb_witness :
    ((import_users cliImportUsers fsSrv1 w0).1[2]? = some Event.writePasswdFile ∨
     (import_users cliImportUsers fsSrv1 w0).1[2]? = some Event.writeGroupFile) ∧
    (import_users cliImportUsers fsSrv1 w0).1[4]? = some (Event.passdbAdd "bob") ∧
    (2 : Nat) < 4 :=
  ⟨Or.inl (by decide), by decide,
   import_users_files_before_passdb cliImportUsers fsSrv1 w0 cfgSrv1 (by decide) 2 4 "bob"
     (Or.inl (by decide)) (by decide)⟩


theorem pairwise_stepOf_of_bounds {A B : List Event} {k : Nat}
    (hA : ∀ a ∈ A, stepOf a ≤ k) (hB : ∀ b ∈ B, k ≤ stepOf b)
    (pA : List.Pairwise (fun a b => stepOf a ≤ stepOf b) A)
    (pB : List.Pairwise (fun a b => stepOf a ≤ stepOf b) B) :
    List.Pairwise (fun a b => stepOf a ≤ stepOf b) (A ++ B) := by
  rw [List.pairwise_append]
  exact ⟨pA, pB, fun a ha b hb => le_trans (hA a ha) (hB b hb)⟩

theorem pairwise_stepOf_const {l : List Event} {c : Nat} (h : ∀ a ∈ l, stepOf a = c) :
    List.Pairwise (fun a b => stepOf a ≤ stepOf b) l := by
  induction l with
  | nil => exact List.Pairwise.nil
  | cons x xs ih =>
    refine List.Pairwise.cons ?_ (ih fun a ha => h a (List.mem_cons_of_mem _ ha))
    intro b hb
    rw [h x (List.mem_cons_self _ _), h b (List.mem_cons_of_mem _ hb)]

theorem init_trace_shape (cli : Cli) (fs : String → Doc) (w : World) (icfg : IdentityConfig)
    (hc : getIConfig fs cli = some icfg) :
    ∃ e3, ((init_container cli fs w).1 =
        ([Event.ensureSambaDirs, Event.registryImport] ++
         ([Event.readPasswdFile, Event.readGroupFile, Event.writePasswdFile,
            Event.writeGroupFile] ++ icfg.users.map (fun u => Event.passdbAdd u.name))) ++ e3) ∧
      (e3 = [Event.nssRead] ∨ e3 = [Event.nssRead, Event.nssWrite]) := by
  simp only [init_container, import_config, import_users, hc, nssStep]
  split_ifs with h
  · exact ⟨[Event.nssRead], by simp, Or.inl rfl⟩
  · exact ⟨[Event.nssRead, Event.nssWrite], by simp, Or.inr rfl⟩

theorem stepOf_mem_passdbMap {l : List User} {ev : Event}
    (h : ev ∈ l.map (fun u => Event.passdbAdd u.name)) : stepOf ev = 1 := by
  rcases List.mem_map.mp h with ⟨u, _, rfl⟩
  rfl

/-- C3: a successful initialize performs the registry step first, then the
identity step, then the resolution step: its trace is monotone under the step
classification, contains events of all three steps, and contains no event of a
later stage. -/
theorem init_container_step_order
    (cli : Cli) (fs : String → Doc) (w : World) (icfg : IdentityConfig)
    (hc : getIConfig fs cli = some icfg) :
    List.Pairwise (fun a b => stepOf a ≤ stepOf b) (init_container cli fs w).1 ∧
    Event.registryImport ∈ (init_container cli fs w).1 ∧
    Event.writePasswdFile ∈ (init_container cli fs w).1 ∧
    Event.nssRead ∈ (init_container cli fs w).1 ∧
    ∀ ev ∈ (init_container cli fs w).1, stepOf ev ≤ 2 := by
  obtain ⟨e3, ht, he3⟩ := init_trace_shape cli fs w icfg hc
  have he3step : ∀ a ∈ e3, stepOf a = 2 := by
    rcases he3 with rfl | rfl <;> intro a ha <;> fin_cases ha <;> rfl
  have hBstep : ∀ a ∈ [Event.readPasswdFile, Event.readGroupFile, Event.writePasswdFile,
      Event.writeGroupFile] ++ icfg.users.map (fun u => Event.passdbAdd u.name),
      stepOf a = 1 := by
    intro a ha
    rcases List.mem_append.mp ha with ha | ha
    · fin_cases ha <;> rfl
    · exact stepOf_mem_passdbMap ha
  have hAstep : ∀ a ∈ [Event.ensureSambaDirs, Event.registryImport], stepOf a = 0 := by
    intro a ha
    fin_cases ha <;> rfl
  rw [ht]
  refine ⟨?_, ?_, ?_, ?_, ?_⟩
  · refine pairwise_stepOf_of_bounds (k := 2) ?_ ?_ ?_ (pairwise_stepOf_const he3step)
    · intro a ha
      rcases List.mem_append.mp ha with ha | ha
      · rw [hAstep a ha]; omega
      · rw [hBstep a ha]; omega
    · intro b hb
      rw [he3step b hb]
    · refine pairwise_stepOf_of_bounds (k := 1) ?_ ?_
        (pairwise_stepOf_const hAstep) (pairwise_stepOf_const hBstep)
      · intro a ha
        rw [hAstep a ha]; omega
      · intro b hb
        rw [hBstep b hb]
  · simp
  · simp
  · rcases he3 with rfl | rfl <;> simp
  · intro ev hev
    rcases List.mem_append.mp hev with hev | hev
    · rcases List.mem_append.mp hev with hev | hev
      · rw [hAstep ev hev]; omega
      · rw [hBstep ev hev]; omega
    · rw [he3step ev hev]

theorem init_container_step_order_witness :
    Event.registryImport ∈ (init_container cliImportUsers fsSrv1 w0).1 ∧
    Event.writePasswdFile ∈ (init_container cliImportUsers fsSrv1 w0).1 ∧
    Event.nssRead ∈ (init_container cliImportUsers fsSrv1 w0).1 := by
  have h := init_container_step_order cliImportUsers fsSrv1 w0 cfgSrv1 (by decide)
  exact ⟨h.2.1, h.2.2.1, h.2.2.2.1⟩


theorem dbEnabled_ensure {conf : List (String × List String)} {db : String}
    (hdb : winbindDbs.contains db = true)
    (h : hasDb conf db = true) : dbEnabled (ensure_winbind_enabled conf) db = true := by
  rcases List.any_eq_true.mp h with ⟨p, hp, hbeq⟩
  apply List.any_eq_true.mpr
  by_cases hcont : p.2.contains "winbind" = true
  · refine ⟨p, ?_, ?_⟩
    · have hfp : (if winbindDbs.contains p.1 && !(p.2.contains "winbind")
          then (p.1, p.2 ++ ["winbind"]) else p) = p := by
        rw [hcont]
        simp
      exact List.mem_map.mpr ⟨p, hp, hfp⟩
    · rw [hbeq, hcont]
      rfl
  · have hcf : p.2.contains "winbind" = false := by
      cases hb : p.2.contains "winbind"
      · rfl
      · exact absurd hb hcont
    have hdp : winbindDbs.contains p.1 = true := by
      rw [eq_of_beq hbeq]
      exact hdb
    refine ⟨(p.1, p.2 ++ ["winbind"]), ?_, ?_⟩
    · have hfp : (if winbindDbs.contains p.1 && !(p.2.contains "winbind")
          then (p.1, p.2 ++ ["winbind"]) else p) = (p.1, p.2 ++ ["winbind"]) := by
        rw [hcf, hdp]
        simp
      exact List.mem_map.mpr ⟨p, hp, hfp⟩
    · rw [hbeq]
      simp

theorem ensure_enables {conf : List (String × List String)}
    (hp : hasDb conf "passwd" = true) (hg : hasDb conf "group" = true) :
    winbind_enabled (ensure_winbind_enabled conf) = true := by
  apply List.all_eq_true.mpr
  intro db hdb
  rcases List.mem_cons.mp hdb with rfl | hdb2
  · exact dbEnabled_ensure (by decide) hp
  · rcases List.mem_cons.mp hdb2 with rfl | h
    · exact dbEnabled_ensure (by decide) hg
    · cases h

/-- C6: the resolution step writes the file exactly when winbind is absent: when
already enabled nothing changes and no write occurs; when absent the step writes,
winbind becomes enabled, and each required directive line it was missing from
gains the module exactly once; a second invocation immediately after performs no
write and changes nothing. -/
theorem nss_ensure_module (w : World)
    (hp : hasDb w.nss "passwd" = true) (hg : hasDb w.nss "group" = true) :
    (winbind_enabled w.nss = true → nssStep w = ([Event.nssRead], w)) ∧
    (winbind_enabled w.nss = false →
      (nssStep w).1 = [Event.nssRead, Event.nssWrite] ∧
      winbind_enabled (nssStep w).2.nss = true ∧
      ∀ p ∈ w.nss, winbindDbs.contains p.1 = true → p.2.contains "winbind" = false →
        (p.1, p.2 ++ ["winbind"]) ∈ (nssStep w).2.nss ∧
        (p.2 ++ ["winbind"]).count "winbind" = 1) ∧
    nssStep (nssStep w).2 = ([Event.nssRead], (nssStep w).2) := by
  refine ⟨?_, ?_, ?_⟩
  · intro h
    simp [nssStep, h]
  · intro h
    refine ⟨by simp [nssStep, h], ?_, ?_⟩
    · simp only [nssStep, h]
      simp only [Bool.false_eq_true, if_false]
      exact ensure_enables hp hg
    · intro p hpmem hdb hcf
      constructor
      · simp only [nssStep, h, Bool.false_eq_true, if_false]
        have hfp : (if winbindDbs.contains p.1 && !(p.2.contains "winbind")
            then (p.1, p.2 ++ ["winbind"]) else p) = (p.1, p.2 ++ ["winbind"]) := by
          rw [hcf, hdb]
          simp
        exact List.mem_map.mpr ⟨p, hpmem, hfp⟩
      · have hnm : "winbind" ∉ p.2 := by simpa using hcf
        rw [List.count_append, List.count_eq_zero.mpr hnm]
        simp
  · cases henb : winbind_enabled w.nss
    · have h2 : (nssStep w).2 = { w with nss := ensure_winbind_enabled w.nss } := by
        simp [nssStep, henb]
      rw [h2]
      have : winbind_enabled (ensure_winbind_enabled w.nss) = true := ensure_enables hp hg
      simp [nssStep, this]
    · have h2 : (nssStep w).2 = w := by simp [nssStep, henb]
      rw [h2]
      simp [nssStep, henb]

theorem nss_ensure_module_witness :
    nssStep (nssStep w0).2 = ([Event.nssRead], (nssStep w0).2) ∧
    (nssStep w0).1 = [Event.nssRead, Event.nssWrite] := by
  have h := nss_ensure_module w0 (by decide) (by decide)
  exact ⟨h.2.2, (h.2.1 (by decide)).1⟩


theorem applyEnv_target (cli : Cli) (env : Env) : (applyEnv cli env).target = cli.target := rfl

theorem applyEnv_autoJoin (cli : Cli) (env : Env) :
    (applyEnv cli env).insecureAutoJoin = cli.insecureAutoJoin := rfl

theorem mkCli_target {raw : RawArgs} {ni aj : Bool} {t : String}
    (h : raw.sub = some (RawSub.run ni aj t)) : (mkCli raw).target = some t := by
  simp [mkCli, h]

theorem mkCli_autoJoin {raw : RawArgs} {ni aj : Bool} {t : String}
    (h : raw.sub = some (RawSub.run ni aj t)) : (mkCli raw).insecureAutoJoin = aj := by
  simp [mkCli, h]

/-- C8: a successful run invocation ends in the process handoff: the outcome is
an exec of one of exactly the two fixed argument vectors, chosen solely by the
target, and the exec is the final event of the trace. -/
theorem run_handoff_fixed_argv
    (raw : RawArgs) (env : Env) (fs : String → Doc) (w : World)
    (ni aj : Bool) (t : String) (tr : List Event) (w' : World) (oc : Outcome)
    (hsub : raw.sub = some (RawSub.run ni aj t))
    (hok : mainRun raw env fs w = (tr, Except.ok (w', oc))) :
    (t = "smbd" ∧ oc = Outcome.execed smbdCmd ∧
      tr.getLast? = some (Event.execOp smbdCmd)) ∨
    (t = "winbindd" ∧ oc = Outcome.execed winbinddCmd ∧
      tr.getLast? = some (Event.execOp winbinddCmd)) := by
  by_cases ht : t ∈ validTargets
  case neg =>
    exfalso
    have hbad : mainRun raw env fs w = ([], Except.error (Err.usage "invalid choice")) := by
      simp [mainRun, parse_args, hsub, ht]
    rw [hbad] at hok
    simp at hok
  case pos =>
    have hp : parse_args raw = Except.ok (mkCli raw) := by
      simp [parse_args, hsub, ht]
    have hts : t = "smbd" ∨ t = "winbindd" := by
      simpa [validTargets] using ht
    by_cases hid : optTruthy ((applyEnv (mkCli raw) env).identity) = true
    case neg =>
      exfalso
      have hid' : optTruthy ((applyEnv (mkCli raw) env).identity) = false := by
        cases hb : optTruthy ((applyEnv (mkCli raw) env).identity)
        · rfl
        · exact absurd hb hid
      have hbad : mainRun raw env fs w
          = ([], Except.error (Err.fail "missing container identity")) := by
        simp [mainRun, hp, hid']
      rw [hbad] at hok
      simp at hok
    case pos =>
      have hclisub : (applyEnv (mkCli raw) env).sub = some (RawSub.run ni aj t) := by
        rw [applyEnv_sub, mkCli_sub, hsub]
      have hdisp : mainRun raw env fs w = run_container (applyEnv (mkCli raw) env) fs w := by
        simp [mainRun, hp, hid, dispatch, hclisub]
      rw [hdisp] at hok
      have htar : (applyEnv (mkCli raw) env).target = some t := by
        rw [applyEnv_target]
        exact mkCli_target hsub
      rcases hs0 : (if !(applyEnv (mkCli raw) env).noInit
          then init_container (applyEnv (mkCli raw) env) fs w
          else ([Event.ensureSambaDirs], Except.ok (w, Outcome.finished))) with ⟨e0, r0⟩
      simp only [run_container] at hok
      rw [hs0] at hok
      cases r0 with
      | error err => simp at hok
      | ok pr =>
        rcases pr with ⟨w1, oc1⟩
        rcases hts with rfl | rfl
        · left
          simp only [htar, reduceIte] at hok
          injection hok with h1 h2
          injection h2 with h3
          injection h3 with h4 h5
          refine ⟨rfl, h5.symm, ?_⟩
          rw [← h1]
          simp [List.getLast?_append]
        · right
          have hne : (some "winbindd" : Option String) = some "smbd" ↔ False := by simp
          simp only [htar, hne, if_false, reduceIte] at hok
          injection hok with h1 h2
          injection h2 with h3
          injection h3 with h4 h5
          refine ⟨rfl, h5.symm, ?_⟩
          rw [← h1]
          simp [List.getLast?_append]





theorem run_handoff_fixed_argv_witness :
    ("smbd" = "smbd" ∧ Outcome.execed smbdCmd = Outcome.execed smbdCmd ∧
      (initTraceSrv1 ++ [Event.execOp smbdCmd]).getLast? = some (Event.execOp smbdCmd)) ∨
    ("smbd" = "winbindd" ∧ Outcome.execed smbdCmd = Outcome.execed winbinddCmd ∧
      (initTraceSrv1 ++ [Event.execOp smbdCmd]).getLast? = some (Event.execOp winbinddCmd)) :=
  run_handoff_fixed_argv rawRunSmbd {} fsSrv1 w0 false false "smbd"
    (initTraceSrv1 ++ [Event.execOp smbdCmd]) wReady (Outcome.execed smbdCmd) rfl (by decide)

theorem joinOp_not_mem_init (cli : Cli) (fs : String → Doc) (w : World) (u p : String) :
    Event.joinOp u p ∉ (init_container cli fs w).1 := by
  cases hc : getIConfig fs cli with
  | none => simp [init_container, import_config, hc]
  | some icfg =>
    obtain ⟨e3, ht, he3⟩ := init_trace_shape cli fs w icfg hc
    rw [ht]
    intro hmem
    rcases List.mem_append.mp hmem with h | h
    · rcases List.mem_append.mp h with h | h
      · simp at h
      · rcases List.mem_append.mp h with h | h
        · simp at h
        · rcases List.mem_map.mp h with ⟨x, _, hx⟩
          simp at hx
    · rcases he3 with rfl | rfl <;> simp at h

/-- C9: with the insecure auto-join flag set, the join happens exactly for the
winbindd target: a run of smbd never produces a join event, and a successful run
of winbindd performs the join immediately before the final handoff. -/
theorem auto_join_only_for_winbindd
    (raw : RawArgs) (env : Env) (fs : String → Doc) (w : World)
    (ni : Bool) (t : String)
    (hsub : raw.sub = some (RawSub.run ni true t)) :
    (t = "smbd" → ∀ u p, Event.joinOp u p ∉ (mainRun raw env fs w).1) ∧
    (t = "winbindd" → ∀ (tr : List Event) (res : World × Outcome),
      mainRun raw env fs w = (tr, Except.ok res) →
      ∃ pre u p, tr = pre ++ [Event.joinOp u p, Event.execOp winbinddCmd]) := by
  constructor
  · rintro rfl u p
    have hp : parse_args raw = Except.ok (mkCli raw) := by
      simp [parse_args, hsub, validTargets]
    by_cases hid : optTruthy ((applyEnv (mkCli raw) env).identity) = true
    · have hclisub : (applyEnv (mkCli raw) env).sub = some (RawSub.run ni true "smbd") := by
        rw [applyEnv_sub, mkCli_sub, hsub]
      have htar : (applyEnv (mkCli raw) env).target = some "smbd" := by
        rw [applyEnv_target]
        exact mkCli_target hsub
      have hdisp : mainRun raw env fs w = run_container (applyEnv (mkCli raw) env) fs w := by
        simp [mainRun, hp, hid, dispatch, hclisub]
      rw [hdisp]
      rcases hs0 : (if !(applyEnv (mkCli raw) env).noInit
          then init_container (applyEnv (mkCli raw) env) fs w
          else ([Event.ensureSambaDirs], Except.ok (w, Outcome.finished))) with ⟨e0, r0⟩
      have he0 : Event.joinOp u p ∉ e0 := by
        by_cases hni : (!(applyEnv (mkCli raw) env).noInit) = true
        · rw [if_pos hni] at hs0
          have hmem := joinOp_not_mem_init (applyEnv (mkCli raw) env) fs w u p
          rw [hs0] at hmem
          exact hmem
        · rw [if_neg hni] at hs0
          injection hs0 with h1 h2
          rw [← h1]
          simp
      simp only [run_container]
      rw [hs0]
      cases r0 with
      | error err => simpa using he0
      | ok pr =>
        rcases pr with ⟨w1, oc1⟩
        simp only [htar, reduceIte]
        intro hmem
        rcases List.mem_append.mp hmem with h | h
        · exact he0 h
        · simp at h
    · have hid' : optTruthy ((applyEnv (mkCli raw) env).identity) = false := by
        cases hb : optTruthy ((applyEnv (mkCli raw) env).identity)
        · rfl
        · exact absurd hb hid
      have hbad : mainRun raw env fs w
          = ([], Except.error (Err.fail "missing container identity")) := by
        simp [mainRun, hp, hid']
      rw [hbad]
      simp
  · rintro rfl tr res hok
    have hp : parse_args raw = Except.ok (mkCli raw) := by
      simp [parse_args, hsub, validTargets]
    by_cases hid : optTruthy ((applyEnv (mkCli raw) env).identity) = true
    · have hclisub : (applyEnv (mkCli raw) env).sub
          = some (RawSub.run ni true "winbindd") := by
        rw [applyEnv_sub, mkCli_sub, hsub]
      have htar : (applyEnv (mkCli raw) env).target = some "winbindd" := by
        rw [applyEnv_target]
        exact mkCli_target hsub
      have haj : (applyEnv (mkCli raw) env).insecureAutoJoin = true := by
        rw [applyEnv_autoJoin]
        exact mkCli_autoJoin hsub
      have hdisp : mainRun raw env fs w = run_container (applyEnv (mkCli raw) env) fs w := by
        simp [mainRun, hp, hid, dispatch, hclisub]
      rw [hdisp] at hok
      rcases hs0 : (if !(applyEnv (mkCli raw) env).noInit
          then init_container (applyEnv (mkCli raw) env) fs w
          else ([Event.ensureSambaDirs], Except.ok (w, Outcome.finished))) with ⟨e0, r0⟩
      simp only [run_container] at hok
      rw [hs0] at hok
      cases r0 with
      | error err => simp at hok
      | ok pr =>
        rcases pr with ⟨w1, oc1⟩
        have hne : ((some "winbindd" : Option String) = some "smbd") ↔ False := by simp
        simp only [htar, hne, if_false, haj, reduceIte] at hok
        injection hok with h1 h2
        refine ⟨e0, (applyEnv (mkCli raw) env).username, (applyEnv (mkCli raw) env).password, ?_⟩
        rw [← h1]
        rfl
    · have hid' : optTruthy ((applyEnv (mkCli raw) env).identity) = false := by
        cases hb : optTruthy ((applyEnv (mkCli raw) env).identity)
        · rfl
        · exact absurd hb hid
      have hbad : mainRun raw env fs w
          = ([], Except.error (Err.fail "missing container identity")) := by
        simp [mainRun, hp, hid']
      rw [hbad] at hok
      simp at hok

theorem auto_join_only_for_winbindd_witness :
    ∃ pre u p, initTraceSrv1 ++ [Event.joinOp "Administrator" "", Event.execOp winbinddCmd]
      = pre ++ [Event.joinOp u p, Event.execOp winbinddCmd] :=
  (auto_join_only_for_winbindd rawRunWb {} fsSrv1 w0 false "winbindd" rfl).2 rfl
    (initTraceSrv1 ++ [Event.joinOp "Administrator" "", Event.execOp winbinddCmd])
    (wReady, Outcome.execed winbinddCmd) (by decide)

end Sambacc
